import Mathlib

/-!
Verification development for the karve OpenViking MCP server
(`src/openviking_mcp_server.py`).

The development is a shallow embedding of the pure core of that module:
the Python string helpers used by the result normalizer, the formatting
functions `_get_item_content`, `_fmt_item`, `_fmt_results`, the tenacity
retry discipline of `VikingClient._connect`, the lazy-singleton
`VikingClient.get`, and the six tool operations `viking_search`,
`viking_deep_search`, `viking_read`, `viking_list`, `viking_remember`,
`viking_status`.  Remote calls are modelled by oracles: functions that
either return the remote result or fail with the message of the
`OpenVikingError` / `OSError` the openviking client library raises.
Machine strings are Lean `String` (Python slicing is per code point, as
is `List Char` indexing).
-/

namespace Karve

/-- Python truthiness-based `or` chaining for optional string attributes,
as in `getattr(item, "content", None) or ...`: a value is kept when it is
a non-empty string; `None` and the empty string fall through. -/
def pyOr : Option String → String → String
  | some s, b => if s = "" then b else s
  | none, b => b

/-- Python slicing `s[:n]` on code points. -/
def pySlice (s : String) (n : Nat) : String := String.mk (s.data.take n)

/-- Python `str.capitalize()`: first code point uppercased, the rest
lowercased.  Used by `_fmt_results` on the category names. -/
def pyCapitalize (s : String) : String :=
  match s.data with
  | [] => ""
  | c :: cs => String.mk (c.toUpper :: cs.map Char.toLower)

/-- `_CONTENT_PREVIEW_LEN` (line 98 of the source). -/
def _CONTENT_PREVIEW_LEN : Nat := 300

/-- `_DEFAULT_OPENVIKING_URL` (line 96 of the source). -/
def _DEFAULT_OPENVIKING_URL : String := "http://localhost:1933"

/-- `_DEFAULT_URI` (line 101), parameterised by the `KARVE_PROJECT`
environment value `_PROJECT` (empty string when the variable is unset):
`f"viking://user/projects/\x7b_PROJECT\x7d/" if _PROJECT else "viking://"`. -/
def _DEFAULT_URI (project : String) : String :=
  if project = "" then "viking://" else "viking://user/projects/" ++ project ++ "/"

/-- A result item as consumed by the formatting helpers: `uri` defaults to
the empty string (`getattr(item, "uri", "")`), the three payload fields and
the score are optional attributes (`getattr(item, _, None)`).  The score is
carried as the text produced by the `f"\x7bscore:.3f\x7d"` formatting,
which no claim inspects. -/
structure Item where
  uri : String := ""
  score : Option String := none
  content : Option String := none
  abstract : Option String := none
  overview : Option String := none
  deriving Repr, DecidableEq

/-- `_get_item_content` (lines 161-176): payload fallback
`content or abstract or overview or ""`, then `str(text)[:300]`
(`str` is the identity on the strings the remote side returns). -/
def _get_item_content (item : Item) : String :=
  pySlice (pyOr item.content (pyOr item.abstract (pyOr item.overview "")))
    _CONTENT_PREVIEW_LEN

/-- The `" (score: ...)"` suffix of `_fmt_item`: empty when the score
attribute is absent. -/
def scoreSuffix (item : Item) : String :=
  match item.score with
  | some s => " (score: " ++ s ++ ")"
  | none => ""

/-- `_fmt_item` (lines 179-195): the URI bullet line, followed by an
indented content line only when the extracted content is non-empty
(`if content:`). -/
def _fmt_item (item : Item) : List String :=
  let first := "- **" ++ item.uri ++ "**" ++ scoreSuffix item
  let content := _get_item_content item
  if content = "" then [first] else [first, "  " ++ content]

/-- A `FindResult`-shaped object as consumed by `_fmt_results`: the three
category attributes may each be absent (`getattr(results, category, None)`). -/
structure ResultSet where
  memories : Option (List Item) := none
  resources : Option (List Item) := none
  skills : Option (List Item) := none
  deriving Repr, DecidableEq

/-- `getattr(results, category, None) or []`: an absent category reads as
the empty list (an empty list is falsy, so `or []` leaves it empty). -/
def catItems : Option (List Item) → List Item
  | none => []
  | some l => l

/-- One iteration of the category loop of `_fmt_results`: an empty
category is skipped (`continue`), a non-empty one contributes its heading
followed by the lines of each item. -/
def categoryBlock (name : String) (o : Option (List Item)) : List String :=
  let items := catItems o
  if items.isEmpty then []
  else ("\n## " ++ pyCapitalize name) :: (items.map _fmt_item).flatten

/-- The full line list accumulated by `_fmt_results` over the fixed tuple
`("memories", "resources", "skills")`. -/
def fmtLines (results : ResultSet) : List String :=
  categoryBlock "memories" results.memories
    ++ categoryBlock "resources" results.resources
    ++ categoryBlock "skills" results.skills

/-- `_fmt_results` (lines 198-215):
`"\n".join(lines) if lines else "No results found."`. -/
def _fmt_results (results : ResultSet) : String :=
  let lines := fmtLines results
  if lines.isEmpty then "No results found." else String.intercalate "\n" lines

/-- A payload attribute is present in the sense of the specification
(section 4.2) when it holds a non-empty string: the spec treats an absent
attribute and an empty payload alike (a payload string is present). -/
def isPresent : Option String → Bool
  | some s => s ≠ ""
  | none => false

/-- Written from the words of spec section 4.2: the first present payload
among content / abstract / overview, in that priority order; empty when
none is present. -/
def specFirstPayload (item : Item) : String :=
  if isPresent item.content then item.content.getD ""
  else if isPresent item.abstract then item.abstract.getD ""
  else if isPresent item.overview then item.overview.getD ""
  else ""

/-- tenacity `wait_exponential(multiplier=1, min=1, max=8)`: the wait
inserted after failed attempt number `attempt` is
`clamp(multiplier * 2 ** (attempt - 1), minW, maxW)`. -/
def wait_exponential (multiplier minW maxW attempt : Nat) : Nat :=
  max minW (min (multiplier * 2 ^ (attempt - 1)) maxW)

/-- Outcome of a retried connect sequence: the final result, the number of
attempts actually made, and the waits inserted between attempts. -/
structure RetryOutcome (E A : Type) where
  result : Except E A
  attempts : Nat
  waits : List Nat
  deriving Repr

/-- `VikingClient._connect` (lines 125-139) under its tenacity decorator
`retry(stop=stop_after_attempt(3), wait=wait_exponential(multiplier=1,
min=1, max=8), reraise=True)`, unrolled at its fixed bound of 3 attempts.
The oracle gives the outcome of each numbered connect+handshake attempt
(`SyncHTTPClient(...)` plus `initialize()`).  With `reraise=True` the
exception of the final failed attempt is re-raised itself, not wrapped in
a `RetryError`; the model therefore returns that exception verbatim. -/
def VikingClient._connect {E A : Type} (oracle : Nat → Except E A) : RetryOutcome E A :=
  match oracle 1 with
  | .ok a => ⟨.ok a, 1, []⟩
  | .error _ =>
    match oracle 2 with
    | .ok a => ⟨.ok a, 2, [wait_exponential 1 1 8 1]⟩
    | .error _ =>
      match oracle 3 with
      | .ok a => ⟨.ok a, 3, [wait_exponential 1 1 8 1, wait_exponential 1 1 8 2]⟩
      | .error e => ⟨.error e, 3, [wait_exponential 1 1 8 1, wait_exponential 1 1 8 2]⟩

/-- `VikingClient.get` (lines 141-152) as a state transformer on the
nullable `_client` field: given the field value before the call, return
the call result, the field value after the call, and the number of
connect sequences triggered (0 or 1).  When `_connect` raises, the
assignment `self._client = ...` never executes, so the field stays
`None`. -/
def VikingClient.get {E A : Type} (oracle : Nat → Except E A) (st : Option A) :
    Except E A × Option A × Nat :=
  match st with
  | some c => (.ok c, some c, 0)
  | none =>
    match (VikingClient._connect oracle).result with
    | .ok c => (.ok c, some c, 1)
    | .error e => (.error e, none, 1)

/-! ### Interleaving model of concurrent `VikingClient.get`

`get` guards the lazy connect with a plain `if self._client is None:`
check followed by `self._client = self._connect()`.  `_connect` performs
blocking network calls, so between the null check of one thread and its
store, another thread can run its own null check.  The model below gives
each of two threads the two atomic regions of `get` — the null check and
the connect-plus-store — and lets a schedule interleave them. -/

/-- The shared `_client` field plus a count of connect sequences run. -/
structure SharedMem where
  client : Option Nat
  connects : Nat
  deriving Repr, DecidableEq

/-- Program counter of one thread running `VikingClient.get`.  A finished
thread records the handle its call returned. -/
inductive ThreadPC where
  | start
  | observedNone
  | observedSome (c : Nat)
  | finished (c : Nat)
  deriving Repr, DecidableEq

/-- One atomic step of a thread running `get`; `handle` is the connection
handle this thread would obtain from its own `_connect` run. -/
def threadStep (handle : Nat) : ThreadPC → SharedMem → ThreadPC × SharedMem
  | .start, m =>
    match m.client with
    | none => (.observedNone, m)
    | some c => (.observedSome c, m)
  | .observedNone, m => (.finished handle, ⟨some handle, m.connects + 1⟩)
  | .observedSome c, m => (.finished c, m)
  | .finished c, m => (.finished c, m)

/-- Two threads (handles 1 and 2) sharing the facade state. -/
structure TwoThreads where
  t1 : ThreadPC
  t2 : ThreadPC
  mem : SharedMem
  deriving Repr, DecidableEq

/-- Run one step of the chosen thread (`true` for thread 1). -/
def sysStep (s : TwoThreads) (who : Bool) : TwoThreads :=
  if who then
    let r := threadStep 1 s.t1 s.mem
    ⟨r.1, s.t2, r.2⟩
  else
    let r := threadStep 2 s.t2 s.mem
    ⟨s.t1, r.1, r.2⟩

/-- Run a schedule of thread choices. -/
def runSched (sched : List Bool) (s : TwoThreads) : TwoThreads :=
  sched.foldl sysStep s

/-- Both threads about to call `get` before any connection exists. -/
def initTwoThreads : TwoThreads := ⟨.start, .start, ⟨none, 0⟩⟩

/-! ### Tool dispatch surface

Each tool body runs inside `try: ... except (OpenVikingError, OSError) as
exc:`; those two exception classes are exactly what the openviking client
library raises for connection and remote-call failures, so remote
failures are modelled as `Except RemoteErr`, carrying the exception
message interpolated by the `f"... \x7bexc\x7d"` failure templates. -/

/-- Message of an `OpenVikingError` / `OSError` raised by a remote call
or connect attempt. -/
abbrev RemoteErr := String

/-- A directory entry as consumed by `viking_list`: `name` stands for
`getattr(item, "name", str(item))`, `type` for `getattr(item, "type",
"")`, `uri` for `getattr(item, "uri", "")`. -/
structure LsItem where
  name : String
  type : String
  uri : String
  deriving Repr, DecidableEq

/-- The value `add_resource` returns, as consumed by
`result.get("uri", "unknown") if isinstance(result, dict) else str(result)`:
either a dict with an optional `"uri"` entry, or some other value carried
as its `str(...)` rendering. -/
inductive AddResult where
  | dict (uri : Option String)
  | nonDict (text : String)
  deriving Repr, DecidableEq

/-- A `SearchResult` as consumed by `viking_deep_search`: the category
attributes plus `getattr(results, "query_plan", [])`, carried as the text
its `f"\x7bplan\x7d"` interpolation produces (empty when the plan is
falsy; its internal structure is opaque to this layer). -/
structure SearchResult where
  results : ResultSet
  queryPlan : String
  deriving Repr, DecidableEq

/-- The remote operations of an established `SyncHTTPClient`, each either
returning its result or failing with an `OpenVikingError` / `OSError`
message.  `getStatusR` stands for `client.get_status()` followed by
`json.dumps(status, indent=2)` (the code wraps that pair in a bare
`except Exception`). -/
structure RemoteClient where
  findR : String → String → Nat → Except RemoteErr ResultSet
  searchR : String → String → Nat → Except RemoteErr SearchResult
  abstractR : String → Except RemoteErr String
  overviewR : String → Except RemoteErr String
  readR : String → Except RemoteErr String
  lsR : String → Except RemoteErr (List LsItem)
  addResourceR : String → String → String → Except RemoteErr AddResult
  isHealthyR : Except RemoteErr Bool
  getStatusR : Except RemoteErr String

/-- The `try: ... except (OpenVikingError, OSError) as exc:` shape shared
by the tool bodies: the value the try block returned when it did, else
`.ok` of the string the handler builds from the caught exception — never
`.error`, which would be an exception escaping to the transport. -/
def pyCatch {A : Type} (body : Except RemoteErr A) (handler : RemoteErr → A) :
    Except RemoteErr A :=
  match body with
  | .ok s => .ok s
  | .error exc => .ok (handler exc)

/-- `viking_search` (lines 295-316).  `acquire` is the outcome of
`_viking.get()`. -/
def viking_search (project : String) (acquire : Except RemoteErr RemoteClient)
    (query : String) (uri : Option String) (limit : Nat) : Except RemoteErr String :=
  let effectiveUri := uri.getD (_DEFAULT_URI project)
  pyCatch
    (do
      let client ← acquire
      let results ← client.findR query effectiveUri limit
      pure (_fmt_results results))
    (fun exc => "viking_search failed: " ++ exc ++ "\nRun: ./scripts/start_openviking.sh")

/-- `viking_deep_search` (lines 319-342). -/
def viking_deep_search (project : String) (acquire : Except RemoteErr RemoteClient)
    (query : String) (uri : Option String) (limit : Nat) : Except RemoteErr String :=
  let effectiveUri := uri.getD (_DEFAULT_URI project)
  pyCatch
    (do
      let client ← acquire
      let results ← client.searchR query effectiveUri limit
      let header :=
        if results.queryPlan = "" then ""
        else "Query expansion: " ++ results.queryPlan ++ "\n"
      pure (header ++ _fmt_results results.results))
    (fun exc => "viking_deep_search failed: " ++ exc)

/-- Remote effects observable from a `viking_read` invocation. -/
inductive RemoteEvent where
  | connectAttempt
  | abstractCall (uri : String)
  | overviewCall (uri : String)
  | readCall (uri : String)
  deriving Repr, DecidableEq

/-- What the transport receives back for a tool invocation: either the
string the handler returned, or the rejection the typed-argument
validation produced before the handler body ran. -/
inductive ToolReply where
  | text (s : String)
  | validationError (param : String)
  deriving Repr, DecidableEq

/-- The three values admitted by the `depth` annotation
`Literal["abstract", "overview", "full"]` (line 348). -/
inductive Depth where
  | abstract
  | overview
  | full
  deriving Repr, DecidableEq

/-- Validation of the `depth` argument against its `Literal` annotation,
performed by the typed-argument layer of the tool transport before the
handler body runs: any value outside the three accepted ones is rejected
there as a caller error. -/
def parseDepth (s : String) : Option Depth :=
  if s = "abstract" then some .abstract
  else if s = "overview" then some .overview
  else if s = "full" then some .full
  else none

/-- `_viking.get()` as run inside a tool body, with its observable remote
events: a cached client is returned directly; otherwise a connect
sequence (outcome `connectR`) is triggered. -/
def facadeGet (st : Option RemoteClient) (connectR : Except RemoteErr RemoteClient) :
    Except RemoteErr RemoteClient × List RemoteEvent :=
  match st with
  | some c => (.ok c, [])
  | none => (connectR, [.connectAttempt])

/-- `viking_read` (lines 345-370) as invoked through the tool surface:
the `depth` argument is first validated against its `Literal` annotation;
only then does the handler body run `_viking.get()` and the dispatch
table `{"abstract": client.abstract, "full": client.read, "overview":
client.overview}`.  The reply is returned together with the remote events
the invocation produced.  `str(...)` on the returned text is the
identity. -/
def viking_read (st : Option RemoteClient) (connectR : Except RemoteErr RemoteClient)
    (uri rawDepth : String) : ToolReply × List RemoteEvent :=
  match parseDepth rawDepth with
  | none => (.validationError "depth", [])
  | some depth =>
    let acq := facadeGet st connectR
    match acq.1 with
    | .error exc => (.text ("viking_read failed for " ++ uri ++ ": " ++ exc), acq.2)
    | .ok client =>
      let call :=
        match depth with
        | .abstract => (client.abstractR uri, RemoteEvent.abstractCall uri)
        | .full => (client.readR uri, RemoteEvent.readCall uri)
        | .overview => (client.overviewR uri, RemoteEvent.overviewCall uri)
      match call.1 with
      | .ok s => (.text s, acq.2 ++ [call.2])
      | .error exc =>
          (.text ("viking_read failed for " ++ uri ++ ": " ++ exc), acq.2 ++ [call.2])

/-- One line of the `viking_list` directory rendering. -/
def fmtLsLine (item : LsItem) : String :=
  let icon := if item.type = "directory" then "📁" else "📄"
  "  " ++ icon ++ " " ++ item.name ++ "  " ++ item.uri

/-- `viking_list` (lines 373-399). -/
def viking_list (project : String) (acquire : Except RemoteErr RemoteClient)
    (uri : Option String) : Except RemoteErr String :=
  let effectiveUri := uri.getD (_DEFAULT_URI project)
  pyCatch
    (do
      let client ← acquire
      let items ← client.lsR effectiveUri
      if items.isEmpty then
        pure ("Empty: " ++ effectiveUri)
      else
        pure (String.intercalate "\n"
          (("Contents of " ++ effectiveUri ++ ":") :: items.map fmtLsLine)))
    (fun exc => "viking_list failed for " ++ effectiveUri ++ ": " ++ exc)

/-- `_write_temp_resource` (lines 218-231): stages `text` in a fresh
temporary file.  The OS-chosen unique path is the parameter `tmpPath`
(the `name` argument only influences that path through the suffix
`"_\x7bname\x7d.md"` or `".md"`); the live local files are a list of
path-content pairs. -/
def _write_temp_resource (fs : List (String × String)) (tmpPath text : String) :
    List (String × String) :=
  (tmpPath, text) :: fs

/-- `os.unlink(path)`: the file at `path` no longer exists afterwards. -/
def osUnlink (fs : List (String × String)) (path : String) : List (String × String) :=
  fs.filter (fun e => e.1 ≠ path)

/-- `result.get("uri", "unknown") if isinstance(result, dict) else str(result)`. -/
def storedUriOf : AddResult → String
  | .dict (some u) => u
  | .dict none => "unknown"
  | .nonDict s => s

/-- `viking_remember` (lines 402-437): stage the text, call
`add_resource(path=tmp_path, target=..., reason=category, wait=True)`
inside `try/except (OpenVikingError, OSError)`, and delete the staged
file in the `finally:` block, which runs on the success path, on the
caught-failure path, and before any uncaught exception could propagate.
Returns the reply string and the local files left afterwards. -/
def viking_remember (project : String) (acquire : Except RemoteErr RemoteClient)
    (tmpPath text category : String) (fs : List (String × String)) :
    Except RemoteErr String × List (String × String) :=
  let fs1 := _write_temp_resource fs tmpPath text
  let target :=
    if project = "" then "viking://user/" ++ category ++ "/"
    else "viking://user/projects/" ++ project ++ "/" ++ category ++ "/"
  let body : Except RemoteErr AddResult := do
    let client ← acquire
    client.addResourceR tmpPath target category
  let fs2 := osUnlink fs1 tmpPath
  (pyCatch (body.map fun result => "Stored at: " ++ storedUriOf result)
    (fun exc => "viking_remember failed: " ++ exc), fs2)

/-- `viking_status` (lines 440-462).  The inner
`try: ... get_status() ... except Exception:` catches every exception of
the status fetch, including remote ones, and degrades to the short
healthy message; the outer handler catches `(OpenVikingError, OSError)`
from `get()` and `is_healthy()`. -/
def viking_status (url : String) (acquire : Except RemoteErr RemoteClient) :
    Except RemoteErr String :=
  pyCatch
    (do
      let client ← acquire
      let healthy ← client.isHealthyR
      if !healthy then
        pure "OpenViking reachable but reports unhealthy status."
      else
        match client.getStatusR with
        | .ok statusJson => pure ("✓ OpenViking healthy\n\n" ++ statusJson)
        | .error _ => pure ("✓ OpenViking healthy at " ++ url))
    (fun exc => "✗ OpenViking not reachable at " ++ url ++ "\nError: " ++ exc
      ++ "\nRun: ./scripts/start_openviking.sh")

/-! ### Substring occurrence, used to state that failure strings name the
failing operation and carry the underlying cause. -/

/-- The needle matches at the head of the haystack. -/
def matchesAt : List Char → List Char → Bool
  | [], _ => true
  | _ :: _, [] => false
  | n :: ns, h :: hs => n == h && matchesAt ns hs

/-- The needle occurs somewhere in the haystack. -/
def occursIn (needle : List Char) : List Char → Bool
  | [] => matchesAt needle []
  | h :: hs => matchesAt needle (h :: hs) || occursIn needle hs

/-- `needle` occurs as a contiguous substring of `hay`. -/
def strOccurs (needle hay : String) : Bool := occursIn needle.data hay.data

/-! ### Concrete fixtures used to instantiate the theorems. -/

/-- A connect oracle whose every attempt fails. -/
def failOracle : Nat → Except String Nat := fun _ => .error "boom"

/-- A connect oracle whose every attempt succeeds with handle 42. -/
def okOracle : Nat → Except String Nat := fun _ => .ok 42

/-- A connect oracle standing for a remote stack that has gone down. -/
def brokenOracle : Nat → Except String Nat := fun _ => .error "down"

/-- A client whose every remote operation fails with message `boom`. -/
def failingClient : RemoteClient where
  findR := fun _ _ _ => .error "boom"
  searchR := fun _ _ _ => .error "boom"
  abstractR := fun _ => .error "boom"
  overviewR := fun _ => .error "boom"
  readR := fun _ => .error "boom"
  lsR := fun _ => .error "boom"
  addResourceR := fun _ _ _ => .error "boom"
  isHealthyR := .error "boom"
  getStatusR := .error "boom"

/-- A client that reports healthy but whose status fetch fails. -/
def statusClient : RemoteClient where
  findR := fun _ _ _ => .error "unused"
  searchR := fun _ _ _ => .error "unused"
  abstractR := fun _ => .error "unused"
  overviewR := fun _ => .error "unused"
  readR := fun _ => .error "unused"
  lsR := fun _ => .error "unused"
  addResourceR := fun _ _ _ => .error "unused"
  isHealthyR := .ok true
  getStatusR := .error "boom"

/-- A client whose three read operations return distinct fixed texts. -/
def readClient : RemoteClient where
  findR := fun _ _ _ => .error "unused"
  searchR := fun _ _ _ => .error "unused"
  abstractR := fun _ => .ok "ABS"
  overviewR := fun _ => .ok "OVW"
  readR := fun _ => .ok "FULL"
  lsR := fun _ => .error "unused"
  addResourceR := fun _ _ _ => .error "unused"
  isHealthyR := .ok true
  getStatusR := .ok "status"

/-- A client whose ingestion call always raises. -/
def faultyIngestClient : RemoteClient where
  findR := fun _ _ _ => .error "unused"
  searchR := fun _ _ _ => .error "unused"
  abstractR := fun _ => .error "unused"
  overviewR := fun _ => .error "unused"
  readR := fun _ => .error "unused"
  lsR := fun _ => .error "unused"
  addResourceR := fun _ _ _ => .error "ingest exploded"
  isHealthyR := .ok true
  getStatusR := .ok "status"

/-- An item carrying both a content and an abstract payload. -/
def itemBoth : Item := { uri := "u", content := some "body text", abstract := some "abs" }

/-- An item whose payload attributes are present but empty or absent. -/
def itemEmpty : Item := { uri := "u", content := some "", overview := some "" }

/-- An item whose content is empty while its abstract is set. -/
def itemEmptyContent : Item := { uri := "u", content := some "", abstract := some "abs" }

/-- A result set with an empty memories list and one skill. -/
def skillsOnly : ResultSet := { memories := some [], skills := some [{ uri := "s1" }] }

/-! ### Helper lemmas. -/

theorem matchesAt_self_append (n r : List Char) : matchesAt n (n ++ r) = true := by
  induction n with
  | nil => rfl
  | cons c cs ih => simp [matchesAt, ih]

theorem occursIn_of_matchesAt {n hay : List Char} (hm : matchesAt n hay = true) :
    occursIn n hay = true := by
  cases hay with
  | nil => simpa [occursIn] using hm
  | cons c cs => simp [occursIn, hm]

theorem occursIn_append_left {n hay : List Char} (pre : List Char)
    (ho : occursIn n hay = true) : occursIn n (pre ++ hay) = true := by
  induction pre with
  | nil => simpa using ho
  | cons c cs ih => simp [occursIn, ih]

theorem strOccurs_left (needle post : String) : strOccurs needle (needle ++ post) = true := by
  unfold strOccurs
  rw [String.data_append]
  exact occursIn_of_matchesAt (matchesAt_self_append _ _)

theorem strOccurs_mid (pre needle post : String) :
    strOccurs needle (pre ++ needle ++ post) = true := by
  unfold strOccurs
  rw [String.data_append, String.data_append, List.append_assoc]
  exact occursIn_append_left _ (occursIn_of_matchesAt (matchesAt_self_append _ _))

theorem strOccurs_right (pre needle : String) : strOccurs needle (pre ++ needle) = true := by
  unfold strOccurs
  rw [String.data_append]
  refine occursIn_append_left _ (occursIn_of_matchesAt ?_)
  simpa using matchesAt_self_append needle.data []

theorem matchesAt_append_right {n hay : List Char} (post : List Char)
    (h : matchesAt n hay = true) : matchesAt n (hay ++ post) = true := by
  induction n generalizing hay with
  | nil => rfl
  | cons c cs ih =>
    cases hay with
    | nil => cases h
    | cons d ds =>
      simp only [matchesAt, Bool.and_eq_true] at h
      simp [matchesAt, h.1, ih h.2]

theorem occursIn_append_right {n hay : List Char} (post : List Char)
    (h : occursIn n hay = true) : occursIn n (hay ++ post) = true := by
  induction hay with
  | nil =>
    simp only [occursIn] at h
    exact occursIn_of_matchesAt (matchesAt_append_right post h)
  | cons c cs ih =>
    simp only [occursIn, Bool.or_eq_true] at h
    rcases h with h | h
    · simpa [occursIn] using Or.inl (matchesAt_append_right post h)
    · simpa [occursIn] using Or.inr (ih h)

/-- An occurrence in `a` stays an occurrence in `a ++ b`. -/
theorem strOccurs_append_of_left {needle a : String} (b : String)
    (h : strOccurs needle a = true) : strOccurs needle (a ++ b) = true := by
  unfold strOccurs at h ⊢
  rw [String.data_append]
  exact occursIn_append_right _ h

/-- An occurrence in `b` stays an occurrence in `a ++ b`. -/
theorem strOccurs_append_of_right {needle b : String} (a : String)
    (h : strOccurs needle b = true) : strOccurs needle (a ++ b) = true := by
  unfold strOccurs at h ⊢
  rw [String.data_append]
  exact occursIn_append_left _ h

theorem except_bind_ok {E A B : Type} (a : A) (f : A → Except E B) :
    (Except.ok a >>= f) = f a := rfl

theorem except_bind_error {E A B : Type} (e : E) (f : A → Except E B) :
    ((Except.error e : Except E A) >>= f) = Except.error e := rfl

theorem pyCatch_is_ok {A : Type} (body : Except RemoteErr A) (handler : RemoteErr → A) :
    ∃ s, pyCatch body handler = .ok s := by
  cases body with
  | ok s => exact ⟨s, rfl⟩
  | error e => exact ⟨handler e, rfl⟩

theorem pyCatch_error {A : Type} {body : Except RemoteErr A} {exc : RemoteErr}
    (h : body = .error exc) (handler : RemoteErr → A) :
    pyCatch body handler = .ok (handler exc) := by
  rw [h]
  rfl

theorem pyOr_eq (o : Option String) (b : String) :
    pyOr o b = if isPresent o then o.getD "" else b := by
  cases o with
  | none => simp [pyOr, isPresent]
  | some s => by_cases h : s = "" <;> simp [pyOr, isPresent, h]

theorem mem_of_head? {α : Type} {l : List α} {a : α} (h : l.head? = some a) : a ∈ l := by
  cases l with
  | nil => cases h
  | cons b t =>
    simp only [List.head?_cons, Option.some.injEq] at h
    simp [h]

theorem head_append_left {s : String} (t : String) {c : Char}
    (h : s.data.head? = some c) : (s ++ t).data.head? = some c := by
  rw [String.data_append]
  cases hs : s.data with
  | nil => rw [hs] at h; cases h
  | cons a l => rw [hs] at h; simpa using h

theorem fmt_item_head (item : Item) :
    ∀ l ∈ _fmt_item item, l.data.head? = some '-' ∨ l.data.head? = some ' ' := by
  intro l hl
  have hfirst : ("- **" ++ item.uri ++ "**" ++ scoreSuffix item).data.head? = some '-' := by
    apply head_append_left
    apply head_append_left
    apply head_append_left
    decide
  simp only [_fmt_item] at hl
  by_cases hc : _get_item_content item = ""
  · rw [if_pos hc] at hl
    simp only [List.mem_singleton] at hl
    subst hl
    exact Or.inl hfirst
  · rw [if_neg hc] at hl
    simp only [List.mem_cons, List.not_mem_nil, or_false] at hl
    rcases hl with hl | hl
    · subst hl
      exact Or.inl hfirst
    · subst hl
      exact Or.inr (head_append_left _ (by decide))

theorem mem_categoryBlock {name l : String} {o : Option (List Item)}
    (h : l ∈ categoryBlock name o) :
    l = "\n## " ++ pyCapitalize name ∨ ∃ item ∈ catItems o, l ∈ _fmt_item item := by
  unfold categoryBlock at h
  by_cases he : (catItems o).isEmpty
  · simp [he] at h
  · simp only [he, if_false, Bool.false_eq_true, List.mem_cons] at h
    rcases h with h | h
    · exact Or.inl h
    · right
      simp only [List.mem_flatten, List.mem_map] at h
      rcases h with ⟨ls, ⟨item, hitem, rfl⟩, hl⟩
      exact ⟨item, hitem, hl⟩

theorem categoryBlock_eq_nil {name : String} {o : Option (List Item)} :
    categoryBlock name o = [] ↔ catItems o = [] := by
  unfold categoryBlock
  by_cases he : (catItems o).isEmpty
  · simp [he, List.isEmpty_iff.mp he]
  · have hne : catItems o ≠ [] := by simpa [List.isEmpty_iff] using he
    simp [he, hne]

theorem categoryBlock_head {name : String} {o : Option (List Item)}
    (h : catItems o ≠ []) :
    (categoryBlock name o).head? = some ("\n## " ++ pyCapitalize name) := by
  unfold categoryBlock
  have he : (catItems o).isEmpty = false := by simpa [List.isEmpty_iff] using h
  simp [he]

theorem heading_mem_categoryBlock {name : String} {o : Option (List Item)}
    (h : catItems o ≠ []) : ("\n## " ++ pyCapitalize name) ∈ categoryBlock name o :=
  mem_of_head? (categoryBlock_head h)

theorem not_mem_categoryBlock {hd name : String} {o : Option (List Item)}
    (hhead : hd.data.head? = some '\n') (hne : hd ≠ "\n## " ++ pyCapitalize name) :
    hd ∉ categoryBlock name o := by
  intro hmem
  rcases mem_categoryBlock hmem with heq | ⟨item, _, hline⟩
  · exact hne heq
  · rcases fmt_item_head item _ hline with hh | hh <;> rw [hhead] at hh <;>
      exact absurd hh (by decide)

/-! ### Claim theorems. -/

/-- C8: for every result item, the rendered payload equals the first
present payload among content, abstract, overview in that priority order
(a payload is present when it holds a non-empty string); in particular,
when both content and abstract are set with content non-empty, content is
used; and the payload is hard-truncated to exactly its first 300
characters, so a 1000-character payload renders as exactly its first 300
characters. -/
theorem content_priority_and_truncation (item : Item) :
    _get_item_content item = pySlice (specFirstPayload item) _CONTENT_PREVIEW_LEN
    ∧ (∀ s t, item.content = some s → s ≠ "" → item.abstract = some t →
        _get_item_content item = pySlice s 300)
    ∧ (∀ s, item.content = some s → s.data.length = 1000 →
        (_get_item_content item).data = s.data.take 300
          ∧ (_get_item_content item).data.length = 300) := by
  have hmain : _get_item_content item
      = pySlice (specFirstPayload item) _CONTENT_PREVIEW_LEN := by
    unfold _get_item_content specFirstPayload
    rw [pyOr_eq, pyOr_eq, pyOr_eq]
  refine ⟨hmain, ?_, ?_⟩
  · intro s t hc hs _
    rw [hmain]
    have hp : specFirstPayload item = s := by
      simp [specFirstPayload, isPresent, hc, hs]
    rw [hp]
    rfl
  · intro s hc hlen
    have hs : s ≠ "" := by
      intro h
      subst h
      simp at hlen
    have hp : specFirstPayload item = s := by
      simp [specFirstPayload, isPresent, hc, hs]
    rw [hmain, hp]
    constructor
    · rfl
    · show (s.data.take 300).length = 300
      simp [List.length_take, hlen]

/-- C8 witness: the theorem applied to an item carrying both a content and
an abstract payload. -/
theorem content_priority_and_truncation_witness :
    _get_item_content itemBoth = pySlice "body text" 300 :=
  (content_priority_and_truncation itemBoth).2.1 "body text" "abs" rfl (by decide) rfl

/-- C10: a content attribute present but equal to the empty string is
treated as absent — the normalizer falls back to abstract, then overview,
in that order — and an item all of whose payload attributes are empty or
absent contributes only its URI line, with no payload line appended. -/
theorem empty_payload_treated_as_absent (item : Item) :
    (item.content = some "" →
      _get_item_content item = _get_item_content { item with content := none })
    ∧ (∀ s, (item.content = none ∨ item.content = some "") → item.abstract = some s →
        s ≠ "" → _get_item_content item = pySlice s 300)
    ∧ (∀ s, (item.content = none ∨ item.content = some "") →
        (item.abstract = none ∨ item.abstract = some "") → item.overview = some s →
        s ≠ "" → _get_item_content item = pySlice s 300)
    ∧ ((item.content = none ∨ item.content = some "") →
        (item.abstract = none ∨ item.abstract = some "") →
        (item.overview = none ∨ item.overview = some "") →
        _fmt_item item = ["- **" ++ item.uri ++ "**" ++ scoreSuffix item]) := by
  refine ⟨?_, ?_, ?_, ?_⟩
  · intro hc
    simp [_get_item_content, hc, pyOr]
  · intro s hc ha hs
    rcases hc with hc | hc <;> simp [_get_item_content, hc, ha, hs, pyOr] <;> rfl
  · intro s hc ha ho hs
    rcases hc with hc | hc <;> rcases ha with ha | ha <;>
      simp [_get_item_content, hc, ha, ho, hs, pyOr] <;> rfl
  · intro hc ha ho
    have hempty : _get_item_content item = "" := by
      rcases hc with hc | hc <;> rcases ha with ha | ha <;> rcases ho with ho | ho <;>
        simp [_get_item_content, hc, ha, ho, pyOr] <;> rfl
    simp [_fmt_item, hempty]

/-- C10 witness: the theorem applied to an item with empty content and a
set abstract, and to an item whose payload attributes are all empty or
absent. -/
theorem empty_payload_treated_as_absent_witness :
    _get_item_content itemEmptyContent = pySlice "abs" 300
    ∧ _fmt_item itemEmpty = ["- **u**"] := by
  constructor
  · exact (empty_payload_treated_as_absent itemEmptyContent).2.1 "abs" (Or.inr rfl) rfl
      (by decide)
  · exact ((empty_payload_treated_as_absent itemEmpty).2.2.2 (Or.inr rfl) (Or.inl rfl)
      (Or.inr rfl)).trans (by decide)

/-- C9: `_fmt_results` emits the three categories in the fixed order
memories, resources, skills (the category attributes are read in that
fixed order, so input order cannot matter), omits absent or empty
categories entirely — a category heading appears in the output lines
exactly when that category has at least one item — and when all three
categories are empty or absent it returns the fixed no-results sentinel,
which is not the empty string. -/
theorem fmt_results_fixed_categories (r : ResultSet) :
    ((catItems r.memories = [] ∧ catItems r.resources = [] ∧ catItems r.skills = []) →
        _fmt_results r = "No results found.")
    ∧ ("No results found." : String) ≠ ""
    ∧ (fmtLines r ≠ [] → _fmt_results r = String.intercalate "\n" (fmtLines r))
    ∧ ("\n## Memories" ∈ fmtLines r ↔ catItems r.memories ≠ [])
    ∧ ("\n## Resources" ∈ fmtLines r ↔ catItems r.resources ≠ [])
    ∧ ("\n## Skills" ∈ fmtLines r ↔ catItems r.skills ≠ [])
    ∧ ∃ bm br bs, fmtLines r = bm ++ br ++ bs
        ∧ (bm = [] ↔ catItems r.memories = [])
        ∧ (br = [] ↔ catItems r.resources = [])
        ∧ (bs = [] ↔ catItems r.skills = [])
        ∧ (catItems r.memories ≠ [] → bm.head? = some "\n## Memories")
        ∧ (catItems r.resources ≠ [] → br.head? = some "\n## Resources")
        ∧ (catItems r.skills ≠ [] → bs.head? = some "\n## Skills") := by
  have hM : ("\n## " ++ pyCapitalize "memories" : String) = "\n## Memories" := by decide
  have hR : ("\n## " ++ pyCapitalize "resources" : String) = "\n## Resources" := by decide
  have hS : ("\n## " ++ pyCapitalize "skills" : String) = "\n## Skills" := by decide
  have memIff : ∀ (hd : String), hd.data.head? = some '\n' →
      ∀ (name1 name2 name3 : String) (o1 o2 o3 : Option (List Item)),
      hd = "\n## " ++ pyCapitalize name1 →
      hd ≠ "\n## " ++ pyCapitalize name2 →
      hd ≠ "\n## " ++ pyCapitalize name3 →
      (hd ∈ categoryBlock name1 o1 ++ categoryBlock name2 o2 ++ categoryBlock name3 o3
        ↔ catItems o1 ≠ []) := by
    intro hd hhd name1 name2 name3 o1 o2 o3 h1 h2 h3
    constructor
    · intro hmem
      intro hnil
      rcases List.mem_append.mp hmem with hm | hm
      · rcases List.mem_append.mp hm with hm | hm
        · rw [categoryBlock_eq_nil.mpr hnil] at hm
          cases hm
        · exact not_mem_categoryBlock hhd h2 hm
      · exact not_mem_categoryBlock hhd h3 hm
    · intro hne
      refine List.mem_append.mpr (Or.inl (List.mem_append.mpr (Or.inl ?_)))
      rw [h1]
      exact heading_mem_categoryBlock hne
  refine ⟨?_, by decide, ?_, ?_, ?_, ?_, ?_⟩
  · intro ⟨h1, h2, h3⟩
    have : fmtLines r = [] := by
      unfold fmtLines
      rw [categoryBlock_eq_nil.mpr h1, categoryBlock_eq_nil.mpr h2,
        categoryBlock_eq_nil.mpr h3]
      rfl
    simp [_fmt_results, this]
  · intro hne
    have : (fmtLines r).isEmpty = false := by simpa [List.isEmpty_iff] using hne
    simp [_fmt_results, this]
  · exact memIff "\n## Memories" (by decide) "memories" "resources" "skills"
      r.memories r.resources r.skills hM.symm (by decide) (by decide)
  · -- the resources heading sits in the middle block; reorder the append
    have base := memIff "\n## Resources" (by decide) "resources" "memories" "skills"
      r.resources r.memories r.skills hR.symm (by decide) (by decide)
    constructor
    · intro hmem
      refine base.mp ?_
      rcases List.mem_append.mp hmem with hm | hm
      · rcases List.mem_append.mp hm with hm | hm
        · exact List.mem_append.mpr (Or.inl (List.mem_append.mpr (Or.inr hm)))
        · exact List.mem_append.mpr (Or.inl (List.mem_append.mpr (Or.inl hm)))
      · exact List.mem_append.mpr (Or.inr hm)
    · intro hne
      have hmem := base.mpr hne
      rcases List.mem_append.mp hmem with hm | hm
      · rcases List.mem_append.mp hm with hm | hm
        · exact List.mem_append.mpr
            (Or.inl (List.mem_append.mpr (Or.inr hm)))
        · exact List.mem_append.mpr (Or.inl (List.mem_append.mpr (Or.inl hm)))
      · exact List.mem_append.mpr (Or.inr hm)
  · have base := memIff "\n## Skills" (by decide) "skills" "memories" "resources"
      r.skills r.memories r.resources hS.symm (by decide) (by decide)
    constructor
    · intro hmem
      refine base.mp ?_
      rcases List.mem_append.mp hmem with hm | hm
      · rcases List.mem_append.mp hm with hm | hm
        · exact List.mem_append.mpr (Or.inl (List.mem_append.mpr (Or.inr hm)))
        · exact List.mem_append.mpr (Or.inr hm)
      · exact List.mem_append.mpr (Or.inl (List.mem_append.mpr (Or.inl hm)))
    · intro hne
      have hmem := base.mpr hne
      rcases List.mem_append.mp hmem with hm | hm
      · rcases List.mem_append.mp hm with hm | hm
        · exact List.mem_append.mpr (Or.inr hm)
        · exact List.mem_append.mpr (Or.inl (List.mem_append.mpr (Or.inl hm)))
      · exact List.mem_append.mpr (Or.inl (List.mem_append.mpr (Or.inr hm)))
  · refine ⟨categoryBlock "memories" r.memories, categoryBlock "resources" r.resources,
      categoryBlock "skills" r.skills, rfl, categoryBlock_eq_nil, categoryBlock_eq_nil,
      categoryBlock_eq_nil, ?_, ?_, ?_⟩
    · intro hne
      rw [categoryBlock_head hne, hM]
    · intro hne
      rw [categoryBlock_head hne, hR]
    · intro hne
      rw [categoryBlock_head hne, hS]

/-- C9 witness: the theorem applied to a result set with an empty memories
list and a single skill. -/
theorem fmt_results_fixed_categories_witness :
    ("\n## Memories" ∉ fmtLines skillsOnly)
    ∧ ("\n## Skills" ∈ fmtLines skillsOnly)
    ∧ _fmt_results { memories := some [] } = "No results found." := by
  refine ⟨?_, ?_, ?_⟩
  · intro h
    exact ((fmt_results_fixed_categories skillsOnly).2.2.2.1.mp h) rfl
  · exact (fmt_results_fixed_categories skillsOnly).2.2.2.2.2.1.mpr (by decide)
  · exact (fmt_results_fixed_categories { memories := some [] }).1 ⟨rfl, rfl, rfl⟩

/-- C3: a fresh connect sequence attempts connect+handshake at most 3
times; the waits between attempts follow `wait_exponential(multiplier=1,
min=1, max=8)`, are monotonically non-decreasing, start at 1 time-unit
and never exceed 8; and when all 3 attempts fail, the failure of the
final attempt is returned verbatim (tenacity `reraise=True`), neither
wrapped nor swallowed. -/
theorem connect_retry_policy {E A : Type} (oracle : Nat → Except E A) :
    (VikingClient._connect oracle).attempts ≤ 3
    ∧ List.Chain' (· ≤ ·) (VikingClient._connect oracle).waits
    ∧ (∀ w ∈ (VikingClient._connect oracle).waits, 1 ≤ w ∧ w ≤ 8)
    ∧ ((VikingClient._connect oracle).waits.head? = none
        ∨ (VikingClient._connect oracle).waits.head? = some 1)
    ∧ (∀ e1 e2 e3, oracle 1 = .error e1 → oracle 2 = .error e2 → oracle 3 = .error e3 →
        (VikingClient._connect oracle).result = .error e3
        ∧ (VikingClient._connect oracle).attempts = 3
        ∧ (VikingClient._connect oracle).waits = [1, 2]) := by
  cases h1 : oracle 1 with
  | ok a =>
    refine ⟨?_, ?_, ?_, ?_, ?_⟩ <;>
      simp [VikingClient._connect, h1, wait_exponential, List.chain'_cons]
  | error e =>
    cases h2 : oracle 2 with
    | ok a =>
      refine ⟨?_, ?_, ?_, ?_, ?_⟩ <;>
        simp [VikingClient._connect, h1, h2, wait_exponential, List.chain'_cons]
    | error f =>
      cases h3 : oracle 3 with
      | ok a =>
        refine ⟨?_, ?_, ?_, ?_, ?_⟩ <;>
          simp [VikingClient._connect, h1, h2, h3, wait_exponential, List.chain'_cons]
      | error g =>
        refine ⟨?_, ?_, ?_, ?_, ?_⟩ <;>
          simp [VikingClient._connect, h1, h2, h3, wait_exponential, List.chain'_cons]

/-- C3 witness: the theorem applied to an oracle whose every attempt
fails with message `boom`. -/
theorem connect_retry_policy_witness :
    (VikingClient._connect failOracle).result = Except.error "boom"
    ∧ (VikingClient._connect failOracle).attempts = 3
    ∧ (VikingClient._connect failOracle).waits = [1, 2] :=
  (connect_retry_policy failOracle).2.2.2.2 "boom" "boom" "boom" rfl rfl rfl

/-- C4: `VikingClient.get` is idempotent after the first successful call:
with a cached handle it returns that same handle, leaves the state
unchanged and triggers no connect sequence, whatever the current connect
oracle would do (the cached handle may have become unusable — `get` still
returns it, so failures surface from the call that uses it); and the
state cached by a successful first call is exactly the returned handle. -/
theorem get_idempotent_after_success {E A : Type}
    (oracle oracle2 : Nat → Except E A) (c : A) :
    VikingClient.get oracle2 (some c) = (.ok c, some c, 0)
    ∧ (∀ st1 k, VikingClient.get oracle none = (.ok c, st1, k) →
        st1 = some c ∧ VikingClient.get oracle2 st1 = (.ok c, st1, 0)) := by
  refine ⟨rfl, ?_⟩
  intro st1 k h
  unfold VikingClient.get at h
  cases hr : (VikingClient._connect oracle).result with
  | ok d =>
    rw [hr] at h
    have hd : d = c ∧ st1 = some d := by
      have h1 := congrArg Prod.fst h
      have h2 := congrArg (fun p => p.2.1) h
      simp at h1 h2
      exact ⟨h1, h2.symm⟩
    rcases hd with ⟨rfl, rfl⟩
    exact ⟨rfl, rfl⟩
  | error e =>
    rw [hr] at h
    have := congrArg Prod.fst h
    simp at this

/-- C4 witness: a successful first call caches handle 42; the second call
returns it unchanged with no connect attempt even though the oracle of
the second call (a remote stack gone down) could no longer connect. -/
theorem get_idempotent_after_success_witness :
    some 42 = some 42 ∧ VikingClient.get brokenOracle (some 42) = (.ok 42, some 42, 0) :=
  (get_idempotent_after_success okOracle brokenOracle 42).2 (some 42) 1 rfl

/-- C5: the claim requires that N concurrent callers of `get` before any
connection exists trigger exactly one connect sequence and observe one
shared outcome.  The code guards the lazy connect with an unguarded
check-then-set on the nullable `_client` field, so the interleaving in
which both threads pass the null check before either stores a client runs
two connect sequences, and the two callers finish with different handles;
a fully sequential schedule does produce a single connect sequence. -/
theorem get_unguarded_double_connect :
    (runSched [true, false, true, false] initTwoThreads).mem.connects = 2
    ∧ (runSched [true, false, true, false] initTwoThreads).t1 = ThreadPC.finished 1
    ∧ (runSched [true, false, true, false] initTwoThreads).t2 = ThreadPC.finished 2
    ∧ ThreadPC.finished 1 ≠ ThreadPC.finished 2
    ∧ (runSched [true, true, false, false] initTwoThreads).mem.connects = 1 := by
  decide

/-- C1: a depth value is rejected by `parseDepth` exactly when it lies
outside the three accepted values; on such a value the invocation is
rejected with a local validation error before the handler body runs — no
connect attempt and no remote read operation occurs (the event trace is
empty) — and that rejection is not a remote-call error reply. -/
theorem viking_read_rejects_invalid_depth
    (st : Option RemoteClient) (connectR : Except RemoteErr RemoteClient)
    (uri d : String) :
    (parseDepth d = none ↔ (d ≠ "abstract" ∧ d ≠ "overview" ∧ d ≠ "full"))
    ∧ (parseDepth d = none →
        viking_read st connectR uri d = (.validationError "depth", []))
    ∧ (∀ s, ToolReply.validationError "depth" ≠ ToolReply.text s) := by
  refine ⟨?_, ?_, ?_⟩
  · unfold parseDepth
    by_cases h1 : d = "abstract"
    · simp [h1]
    · by_cases h2 : d = "overview"
      · simp [h1, h2]
      · by_cases h3 : d = "full" <;> simp [h1, h2, h3]
  · intro h
    simp [viking_read, h]
  · intro s
    simp

/-- C1 witness: the invalid depth value `banana` is rejected with no
remote event. -/
theorem viking_read_rejects_invalid_depth_witness :
    viking_read none (.error "conn") "viking://x" "banana"
      = (.validationError "depth", []) :=
  (viking_read_rejects_invalid_depth none (.error "conn") "viking://x" "banana").2.1
    (by decide)

/-- C6: with an established client, each valid depth dispatches to its
own distinct remote read operation — abstract to the abstract call,
overview to the overview call, full to the read call — and the tool
returns exactly that call's result unmodified. -/
theorem viking_read_depth_dispatch (client : RemoteClient)
    (connectR : Except RemoteErr RemoteClient) (uri : String) :
    (∀ s, client.abstractR uri = .ok s →
        viking_read (some client) connectR uri "abstract"
          = (.text s, [.abstractCall uri]))
    ∧ (∀ s, client.overviewR uri = .ok s →
        viking_read (some client) connectR uri "overview"
          = (.text s, [.overviewCall uri]))
    ∧ (∀ s, client.readR uri = .ok s →
        viking_read (some client) connectR uri "full"
          = (.text s, [.readCall uri]))
    ∧ (RemoteEvent.abstractCall uri ≠ .overviewCall uri)
    ∧ (RemoteEvent.abstractCall uri ≠ .readCall uri)
    ∧ (RemoteEvent.overviewCall uri ≠ .readCall uri) := by
  refine ⟨?_, ?_, ?_, by simp, by simp, by simp⟩ <;>
    exact fun s h => by simp [viking_read, parseDepth, facadeGet, h]

/-- C6 witness: the theorem applied to a client whose three read
operations return distinct fixed texts. -/
theorem viking_read_depth_dispatch_witness :
    viking_read (some readClient) (.error "conn") "viking://a" "abstract"
      = (.text "ABS", [.abstractCall "viking://a"])
    ∧ viking_read (some readClient) (.error "conn") "viking://a" "overview"
      = (.text "OVW", [.overviewCall "viking://a"])
    ∧ viking_read (some readClient) (.error "conn") "viking://a" "full"
      = (.text "FULL", [.readCall "viking://a"]) := by
  have h := viking_read_depth_dispatch readClient (.error "conn") "viking://a"
  exact ⟨h.1 "ABS" rfl, h.2.1 "OVW" rfl, h.2.2.1 "FULL" rfl⟩

/-- C7: the staged temporary file of a `viking_remember` call (a path
fresh with respect to the existing files) is deleted before the call
returns, on every outcome of the ingestion call — the `finally:` block
runs whether `add_resource` returns or raises — so afterwards the staged
file no longer exists and the file list is exactly as before the call. -/
theorem remember_deletes_staged_file (project : String)
    (acquire : Except RemoteErr RemoteClient) (tmpPath text category : String)
    (fs : List (String × String)) (hfresh : ∀ e ∈ fs, e.1 ≠ tmpPath) :
    (viking_remember project acquire tmpPath text category fs).2 = fs
    ∧ ∀ e ∈ (viking_remember project acquire tmpPath text category fs).2,
        e.1 ≠ tmpPath := by
  have h2 : (viking_remember project acquire tmpPath text category fs).2
      = osUnlink (_write_temp_resource fs tmpPath text) tmpPath := rfl
  have h3 : osUnlink (_write_temp_resource fs tmpPath text) tmpPath = fs := by
    unfold osUnlink _write_temp_resource
    rw [List.filter_cons]
    simp only [decide_not, ne_eq, decide_True, Bool.not_true, Bool.false_eq_true,
      if_false]
    refine List.filter_eq_self.mpr ?_
    intro a ha
    simpa using hfresh a ha
  refine ⟨h2.trans h3, ?_⟩
  intro e he
  rw [h2.trans h3] at he
  exact hfresh e he

/-- C7 witness: a `remember` call whose ingestion raises still leaves no
staged file behind. -/
theorem remember_deletes_staged_file_witness :
    (viking_remember "" (.ok faultyIngestClient) "/tmp/stage.md" "hello" "note" []).2
      = [] :=
  (remember_deletes_staged_file "" (.ok faultyIngestClient) "/tmp/stage.md" "hello"
    "note" [] (by simp)).1

/-- C2 (amended): no tool operation lets an `OpenVikingError` / `OSError`
escape past the dispatch boundary.  `viking_search`, `viking_deep_search`,
`viking_read`, `viking_list` and `viking_remember` convert every failure
of the connection attempt or of their remote call into a failure string
that names the failing operation and includes the underlying cause.
`viking_status` also contains every such failure, and its
connection/health-check failure string includes the cause and a
remediation hint, but not the operation name; a failure of the status
fetch itself is reported as the short healthy message instead of a
failure string. -/
theorem tool_failures_contained (project url query uri tmpPath text category : String)
    (uriOpt : Option String) (limit : Nat) (fs : List (String × String))
    (client : RemoteClient) (exc : RemoteErr) :
    (∀ acq, ∃ s, viking_search project acq query uriOpt limit = .ok s)
    ∧ (∀ acq, ∃ s, viking_deep_search project acq query uriOpt limit = .ok s)
    ∧ (∀ acq, ∃ s, viking_list project acq uriOpt = .ok s)
    ∧ (∀ acq, ∃ s, (viking_remember project acq tmpPath text category fs).1 = .ok s)
    ∧ (∀ acq, ∃ s, viking_status url acq = .ok s)
    ∧ (∀ st cR rawD, (∃ s, (viking_read st cR uri rawD).1 = .text s)
        ∨ ∃ p, (viking_read st cR uri rawD).1 = .validationError p)
    ∧ (∃ s, viking_search project (.error exc) query uriOpt limit = .ok s
        ∧ strOccurs "viking_search" s = true ∧ strOccurs exc s = true)
    ∧ ((∀ q u l, client.findR q u l = .error exc) →
        ∃ s, viking_search project (.ok client) query uriOpt limit = .ok s
          ∧ strOccurs "viking_search" s = true ∧ strOccurs exc s = true)
    ∧ (∃ s, viking_deep_search project (.error exc) query uriOpt limit = .ok s
        ∧ strOccurs "viking_deep_search" s = true ∧ strOccurs exc s = true)
    ∧ ((∀ q u l, client.searchR q u l = .error exc) →
        ∃ s, viking_deep_search project (.ok client) query uriOpt limit = .ok s
          ∧ strOccurs "viking_deep_search" s = true ∧ strOccurs exc s = true)
    ∧ (∃ s, (viking_read none (.error exc) uri "overview").1 = .text s
        ∧ strOccurs "viking_read" s = true ∧ strOccurs exc s = true)
    ∧ ((∀ u, client.overviewR u = .error exc) →
        ∃ s, (viking_read (some client) (.ok client) uri "overview").1 = .text s
          ∧ strOccurs "viking_read" s = true ∧ strOccurs exc s = true)
    ∧ (∃ s, viking_list project (.error exc) uriOpt = .ok s
        ∧ strOccurs "viking_list" s = true ∧ strOccurs exc s = true)
    ∧ ((∀ u, client.lsR u = .error exc) →
        ∃ s, viking_list project (.ok client) uriOpt = .ok s
          ∧ strOccurs "viking_list" s = true ∧ strOccurs exc s = true)
    ∧ (∃ s, (viking_remember project (.error exc) tmpPath text category fs).1 = .ok s
        ∧ strOccurs "viking_remember" s = true ∧ strOccurs exc s = true)
    ∧ ((∀ p t r, client.addResourceR p t r = .error exc) →
        ∃ s, (viking_remember project (.ok client) tmpPath text category fs).1 = .ok s
          ∧ strOccurs "viking_remember" s = true ∧ strOccurs exc s = true)
    ∧ (∃ s, viking_status url (.error exc) = .ok s ∧ strOccurs exc s = true
        ∧ strOccurs "start_openviking" s = true)
    ∧ (client.isHealthyR = .error exc →
        ∃ s, viking_status url (.ok client) = .ok s ∧ strOccurs exc s = true)
    ∧ (client.isHealthyR = .ok true → client.getStatusR = .error exc →
        viking_status url (.ok client) = .ok ("✓ OpenViking healthy at " ++ url)) := by
  refine ⟨?_, ?_, ?_, ?_, ?_, ?_, ?_, ?_, ?_, ?_, ?_, ?_, ?_, ?_, ?_, ?_, ?_, ?_, ?_⟩
  · intro acq
    exact pyCatch_is_ok _ _
  · intro acq
    exact pyCatch_is_ok _ _
  · intro acq
    exact pyCatch_is_ok _ _
  · intro acq
    exact pyCatch_is_ok _ _
  · intro acq
    exact pyCatch_is_ok _ _
  · intro st cR rawD
    cases h : (viking_read st cR uri rawD).1 with
    | text s => exact Or.inl ⟨s, rfl⟩
    | validationError p => exact Or.inr ⟨p, rfl⟩
  · refine ⟨_, rfl, ?_, ?_⟩
    · exact strOccurs_append_of_left _ (strOccurs_append_of_left _ (by decide))
    · exact strOccurs_append_of_left _ (strOccurs_right _ _)
  · intro hfind
    have hb : viking_search project (.ok client) query uriOpt limit
        = .ok ("viking_search failed: " ++ exc
            ++ "\nRun: ./scripts/start_openviking.sh") := by
      unfold viking_search
      simp only [except_bind_ok]
      rw [hfind, except_bind_error]
      rfl
    refine ⟨_, hb, ?_, ?_⟩
    · exact strOccurs_append_of_left _ (strOccurs_append_of_left _ (by decide))
    · exact strOccurs_append_of_left _ (strOccurs_right _ _)
  · refine ⟨_, rfl, ?_, ?_⟩
    · exact strOccurs_append_of_left _ (by decide)
    · exact strOccurs_right _ _
  · intro hsearch
    have hb : viking_deep_search project (.ok client) query uriOpt limit
        = .ok ("viking_deep_search failed: " ++ exc) := by
      unfold viking_deep_search
      simp only [except_bind_ok]
      rw [hsearch, except_bind_error]
      rfl
    refine ⟨_, hb, ?_, ?_⟩
    · exact strOccurs_append_of_left _ (by decide)
    · exact strOccurs_right _ _
  · refine ⟨"viking_read failed for " ++ uri ++ ": " ++ exc,
      by simp [viking_read, parseDepth, facadeGet], ?_, ?_⟩
    · exact strOccurs_append_of_left _
        (strOccurs_append_of_left _ (strOccurs_append_of_left _ (by decide)))
    · exact strOccurs_right _ _
  · intro hov
    refine ⟨"viking_read failed for " ++ uri ++ ": " ++ exc,
      by simp [viking_read, parseDepth, facadeGet, hov], ?_, ?_⟩
    · exact strOccurs_append_of_left _
        (strOccurs_append_of_left _ (strOccurs_append_of_left _ (by decide)))
    · exact strOccurs_right _ _
  · refine ⟨_, rfl, ?_, ?_⟩
    · exact strOccurs_append_of_left _
        (strOccurs_append_of_left _ (strOccurs_append_of_left _ (by decide)))
    · exact strOccurs_right _ _
  · intro hls
    have hb : viking_list project (.ok client) uriOpt
        = .ok ("viking_list failed for " ++ uriOpt.getD (_DEFAULT_URI project)
            ++ ": " ++ exc) := by
      unfold viking_list
      simp only [except_bind_ok]
      rw [hls, except_bind_error]
      rfl
    refine ⟨_, hb, ?_, ?_⟩
    · exact strOccurs_append_of_left _
        (strOccurs_append_of_left _ (strOccurs_append_of_left _ (by decide)))
    · exact strOccurs_right _ _
  · refine ⟨_, rfl, ?_, ?_⟩
    · exact strOccurs_append_of_left _ (by decide)
    · exact strOccurs_right _ _
  · intro hadd
    have hb : (viking_remember project (.ok client) tmpPath text category fs).1
        = .ok ("viking_remember failed: " ++ exc) := by
      unfold viking_remember
      simp only [except_bind_ok]
      rw [hadd]
      rfl
    refine ⟨_, hb, ?_, ?_⟩
    · exact strOccurs_append_of_left _ (by decide)
    · exact strOccurs_right _ _
  · refine ⟨_, rfl, ?_, ?_⟩
    · exact strOccurs_append_of_left _ (strOccurs_right _ _)
    · exact strOccurs_append_of_right _ (by decide)
  · intro hh
    have hb : viking_status url (.ok client)
        = .ok ("✗ OpenViking not reachable at " ++ url ++ "\nError: " ++ exc
            ++ "\nRun: ./scripts/start_openviking.sh") := by
      unfold viking_status
      simp only [except_bind_ok]
      rw [hh, except_bind_error]
      rfl
    refine ⟨_, hb, ?_⟩
    exact strOccurs_append_of_left _ (strOccurs_right _ _)
  · intro hhe hgs
    unfold viking_status
    simp only [except_bind_ok]
    rw [hhe, except_bind_ok, hgs]
    rfl

/-- C2 counterexample to the claim as frozen: a remote `get_status`
failure (message `boom`) against an established, healthy connection makes
`viking_status` return the short healthy message — a string that neither
names the failing operation nor includes the underlying cause, and is not
a failure string at all. -/
theorem viking_status_swallows_status_failure :
    viking_status _DEFAULT_OPENVIKING_URL (.ok statusClient)
      = .ok "✓ OpenViking healthy at http://localhost:1933"
    ∧ statusClient.getStatusR = .error "boom"
    ∧ strOccurs "viking_status" "✓ OpenViking healthy at http://localhost:1933" = false
    ∧ strOccurs "boom" "✓ OpenViking healthy at http://localhost:1933" = false := by
  refine ⟨?_, rfl, by decide, by decide⟩
  rfl

/-- C2 witness: the amended theorem applied to a client whose every
remote operation fails with message `boom`. -/
theorem tool_failures_contained_witness :
    ∃ s, viking_search "" (.ok failingClient) "q" none 5 = .ok s
      ∧ strOccurs "viking_search" s = true ∧ strOccurs "boom" s = true :=
  (tool_failures_contained "" _DEFAULT_OPENVIKING_URL "q" "viking://x" "/tmp/f.md"
    "hello" "note" none 5 [] failingClient "boom").2.2.2.2.2.2.2.1
    (fun _ _ _ => rfl)

end Karve
